import Mathlib

/-!
Shallow embedding of `internal/zfs/encryption.go` from the zrepl repository.

The file models:
- the process-wide capability cache `encryptionCLISupport` (a `sync.Once`
  guarded `{supported : bool, err : error}` pair) and the probe body run by
  `once.Do`,
- `EncryptionCLISupported`, which memoizes the probe result,
- the two gate functions `ZFSGetEncryptionEnabled` and `ZFSGetKeyUnloaded`,
  which consult the cached capability, optionally validate the dataset name,
  query a single zfs property through the external query collaborator, and
  interpret the returned string value.

External collaborators (subprocess execution, `envconst.Bool`, dataset name
validation, `zfsGet`) are modelled as inputs: a `ProbeEnv` carries the
combined output, the classified command error, and the environment override
observed by the one-time probe; a `ZfsEnv` additionally carries the
validation and property-query collaborators as functions.

Go `error` values are modelled by `Option GoError` (with `none` for `nil`),
`errors.Wrap` by `Option.map` of a wrapping constructor (pkg/errors
documents `Wrap(nil, msg) = nil`), and Go `panic` by a distinguished
`GoResult.panicked` outcome. Collaborator invocations (probe subprocess
execution, name validation, property queries) are recorded in an event log
so that claims about calls that must or must not happen are statable.
-/

namespace ZreplEncryption

/-- Result of the error classification that Go performs on the value returned
by `cmd.CombinedOutput()`: no error at all, an `*exec.ExitError` (whose
`Exited()` method tells whether the process terminated via exit rather than,
say, a signal), or any other error (spawn failure, binary missing, ...). -/
inductive CmdErr where
  | noErr
  | exitErr (exited : Bool)
  | otherErr (msg : String)
deriving DecidableEq, Repr

/-- Whether the Go type assertion `err.(*exec.ExitError)` succeeds: it does
exactly when the error is present and is an exit error. -/
def CmdErr.isExitErrB : CmdErr → Bool
  | .exitErr _ => true
  | _ => false

/-- The value of `ee.Exited()` when the type assertion succeeded (unused
otherwise; the Go code only reads it under `ok`). -/
def CmdErr.exitedB : CmdErr → Bool
  | .exitErr e => e
  | _ => false

/-- Go error values built by this file's code paths. -/
inductive GoError where
  /-- the raw (non-nil) error returned by `cmd.CombinedOutput()` -/
  | cmdFailure (c : CmdErr)
  /-- a (non-nil) error returned by the external `validateZFSFilesystem` -/
  | validationFailure (msg : String)
  /-- a (non-nil) error returned by the external `zfsGet` collaborator -/
  | queryFailure (msg : String)
  /-- `errors.New(msg)` -/
  | newErr (msg : String)
  /-- `errors.Wrap(cause, msg)` and the deferred `fmt.Errorf` context wrap -/
  | wrapErr (msg : String) (cause : GoError)
deriving DecidableEq, Repr

/-- pkg/errors `errors.Wrap`: returns nil when the cause is nil, otherwise a
new error carrying the message and the cause. -/
def errorsWrap (e : Option GoError) (msg : String) : Option GoError :=
  e.map (GoError.wrapErr msg)

/-- The Go error value returned by `cmd.CombinedOutput()`: `nil` iff the
classification is `noErr`. -/
def cmdErrValue : CmdErr → Option GoError
  | .noErr => none
  | c => some (GoError.cmdFailure c)

/-- Everything the one-time probe observes from its collaborators: the
combined stdout+stderr of `zfs load-key`, the classified command error, and
the `ZREPL_EXPERIMENTAL_ZFS_ENCRYPTION_CLI_SUPPORTED` environment override
(`none` when the variable is unset, in which case `envconst.Bool` returns
the computed default). -/
structure ProbeEnv where
  output : String
  cmdErr : CmdErr
  override : Option Bool
deriving DecidableEq, Repr

/-- In `listStartsWith sub s`, decides whether `sub` is a prefix of `s` (on
character lists). Auxiliary for `strContains`. -/
def listStartsWith : List Char → List Char → Bool
  | [], _ => true
  | _ :: _, [] => false
  | a :: as, b :: bs => a == b && listStartsWith as bs

/-- Whether `sub` occurs contiguously inside the second list. -/
def listHasSub (sub : List Char) : List Char → Bool
  | [] => listStartsWith sub []
  | c :: rest => listStartsWith sub (c :: rest) || listHasSub sub rest

/-- Go `strings.Contains(s, sub)`. -/
def strContains (s sub : String) : Bool :=
  listHasSub sub.toList s.toList

/-- The body of `encryptionCLISupport.once.Do(func(){...})`: classifies the
command error, computes the substring-based default, and applies the
environment override. Returns the `(supported, err)` pair stored into the
process-wide capability state. -/
def probeCompute (p : ProbeEnv) : Bool × Option GoError :=
  let err := cmdErrValue p.cmdErr
  let recordedErr :=
    if !p.cmdErr.isExitErrB || (p.cmdErr.isExitErrB && !p.cmdErr.exitedB) then
      errorsWrap err "native encryption cli support feature check failed"
    else
      none
  let dflt := strContains p.output "load-key" && strContains p.output "keylocation"
  let supported :=
    match p.override with
    | some b => b
    | none => dflt
  (supported, recordedErr)

/-- The process-wide capability state guarded by `sync.Once`: `none` before
the first execution of the probe body, `some (supported, err)` afterwards. -/
abbrev CacheState := Option (Bool × Option GoError)

/-- Observable collaborator invocations. -/
inductive Event where
  /-- the probe subprocess (`zfs load-key`) was executed -/
  | probeExec
  /-- `validateZFSFilesystem fs` was called -/
  | validateCall (fs : String)
  /-- `zfsGet ctx fs props SourceAny` was called -/
  | queryCall (fs : String) (props : List String)
deriving DecidableEq, Repr

/-- Whether an event is a property query. -/
def Event.isQuery : Event → Bool
  | .queryCall _ _ => true
  | _ => false

/-- Whether an event is a probe subprocess execution. -/
def Event.isProbe : Event → Bool
  | .probeExec => true
  | _ => false

/-- Whether an event is a dataset-name validation call. -/
def Event.isValidate : Event → Bool
  | .validateCall _ => true
  | _ => false

/-- Go `EncryptionCLISupported`: runs the probe body if the `sync.Once` has
not fired yet, then returns the cached pair. Also returns the new cache
state and the collaborator events of this call. -/
def EncryptionCLISupported (p : ProbeEnv) (s : CacheState) :
    (Bool × Option GoError) × CacheState × List Event :=
  match s with
  | none => ((probeCompute p), some (probeCompute p), [Event.probeExec])
  | some r => (r, some r, [])

/-- Outcome of a Go function that may panic. -/
inductive GoResult (α : Type) where
  | ok (v : α)
  | panicked (msg : String)
deriving DecidableEq, Repr

/-- Property source authority; only `SourceAny` is used by this code. -/
inductive PropertySource where
  | SourceAny
deriving DecidableEq, Repr

/-- A zfs property set, as consumed here: `props.Get name` yields the string
value, or the empty string when absent. -/
def ZFSProperties : Type := String → String

/-- Everything the gate functions observe from their collaborators. -/
structure ZfsEnv where
  probe : ProbeEnv
  /-- `validateZFSFilesystem fs`: `none` = valid, `some e` = validation error -/
  validateErr : String → Option GoError
  /-- `zfsGet ctx fs propNames source` -/
  getProps : String → List String → PropertySource → Except GoError ZFSProperties

/-- The deferred wrap in `ZFSGetEncryptionEnabled`:
`fmt.Errorf("zfs get encryption enabled fs=%q: %s", fs, *e)` applied to a
non-nil returned error (a panic propagates unchanged). -/
def deferWrapEnc (fs : String) :
    GoResult (Bool × Option GoError) → GoResult (Bool × Option GoError)
  | .ok (b, some e) =>
      .ok (b, some (GoError.wrapErr ("zfs get encryption enabled fs=\x22" ++ fs ++ "\x22") e))
  | r => r

/-- The deferred wrap in `ZFSGetKeyUnloaded`:
`fmt.Errorf("zfs get key loaded fs=%q: %s", fs, *e)`. -/
def deferWrapKey (fs : String) :
    GoResult (Bool × Option GoError) → GoResult (Bool × Option GoError)
  | .ok (b, some e) =>
      .ok (b, some (GoError.wrapErr ("zfs get key loaded fs=\x22" ++ fs ++ "\x22") e))
  | r => r

/-- The `switch val` of `ZFSGetEncryptionEnabled` over the value of the
`encryption` property. -/
def interpretEncryptionValue (val : String) : GoResult (Bool × Option GoError) :=
  match val with
  | "" => .panicked "zfs get should return a value for `encryption`"
  | "-" => .ok (false, some (GoError.newErr
      "`encryption` property should never be \x22-\x22"))
  | "off" => .ok (false, none)
  | _ => .ok (true, none)

/-- The query-and-interpret tail of `ZFSGetEncryptionEnabled`: `zfsGet` for
the single property `encryption` with `SourceAny`, error wrapping on query
failure, then the switch on the value. -/
def encQueryStep (env : ZfsEnv) (fs : String) : GoResult (Bool × Option GoError) :=
  match env.getProps fs ["encryption"] PropertySource.SourceAny with
  | .error e => .ok (false, some (GoError.wrapErr "cannot get `encryption` property" e))
  | .ok props => interpretEncryptionValue (props "encryption")

/-- Body of `ZFSGetEncryptionEnabled` before the deferred wrap: capability
check (error first, then the unsupported short-circuit), name validation,
then the `encryption` query-and-interpret tail. -/
def zfsGetEncryptionEnabledBody (env : ZfsEnv) (fs : String) (s : CacheState) :
    GoResult (Bool × Option GoError) × CacheState × List Event :=
  let pr := EncryptionCLISupported env.probe s
  match pr.1.2 with
  | some e => (.ok (false, some e), pr.2.1, pr.2.2)
  | none =>
    if !pr.1.1 then
      (.ok (false, none), pr.2.1, pr.2.2)
    else
      match env.validateErr fs with
      | some e => (.ok (false, some e), pr.2.1, pr.2.2 ++ [Event.validateCall fs])
      | none =>
        (encQueryStep env fs, pr.2.1,
          pr.2.2 ++ [Event.validateCall fs, Event.queryCall fs ["encryption"]])

/-- Go `ZFSGetEncryptionEnabled`: the body with the deferred error wrap
applied to the returned value. -/
def ZFSGetEncryptionEnabled (env : ZfsEnv) (fs : String) (s : CacheState) :
    GoResult (Bool × Option GoError) × CacheState × List Event :=
  let r := zfsGetEncryptionEnabledBody env fs s
  (deferWrapEnc fs r.1, r.2.1, r.2.2)

/-- The `switch val` of `ZFSGetKeyUnloaded` over the value of the
`keystatus` property. -/
def interpretKeystatusValue (val : String) : GoResult (Bool × Option GoError) :=
  match val with
  | "" => .panicked "zfs get should return a value for `keystatus`"
  | "available" => .ok (false, none)
  | "unavailable" => .ok (true, none)
  | _ => .panicked "Unknown key status"

/-- The query-and-interpret tail of `ZFSGetKeyUnloaded`: `zfsGet` for the
single property `keystatus` with `SourceAny`, error wrapping on query
failure, then the switch on the value. -/
def keyQueryStep (env : ZfsEnv) (fs : String) : GoResult (Bool × Option GoError) :=
  match env.getProps fs ["keystatus"] PropertySource.SourceAny with
  | .error e => .ok (false, some (GoError.wrapErr "cannot get `keystatus` property" e))
  | .ok props => interpretKeystatusValue (props "keystatus")

/-- Body of `ZFSGetKeyUnloaded` before the deferred wrap: capability check,
then directly the `keystatus` query-and-interpret tail (the Go function
performs no dataset-name validation). -/
def zfsGetKeyUnloadedBody (env : ZfsEnv) (fs : String) (s : CacheState) :
    GoResult (Bool × Option GoError) × CacheState × List Event :=
  let pr := EncryptionCLISupported env.probe s
  match pr.1.2 with
  | some e => (.ok (false, some e), pr.2.1, pr.2.2)
  | none =>
    if !pr.1.1 then
      (.ok (false, none), pr.2.1, pr.2.2)
    else
      (keyQueryStep env fs, pr.2.1, pr.2.2 ++ [Event.queryCall fs ["keystatus"]])

/-- Go `ZFSGetKeyUnloaded`: the body with the deferred error wrap applied. -/
def ZFSGetKeyUnloaded (env : ZfsEnv) (fs : String) (s : CacheState) :
    GoResult (Bool × Option GoError) × CacheState × List Event :=
  let r := zfsGetKeyUnloadedBody env fs s
  (deferWrapKey fs r.1, r.2.1, r.2.2)

/-- Cache states reachable during a process lifetime: empty, or filled with
the pair the probe body computes (the probe environment is fixed for the
process, so only one pair can ever be stored). -/
def ValidCache (p : ProbeEnv) (s : CacheState) : Prop :=
  s = none ∨ s = some (probeCompute p)

instance (p : ProbeEnv) (s : CacheState) : Decidable (ValidCache p s) := by
  unfold ValidCache; infer_instance

/-! ## Process-lifetime traces

The memoization claim quantifies over arbitrarily interleaved calls to the
three public operations within one process. A trace is a list of operations
executed sequentially against the shared capability cache; each operation
consults `EncryptionCLISupported` exactly once, and the pair that call
returns is the operation's observation of the capability state. -/

/-- One call to a public operation of the subsystem. -/
inductive Op where
  | probe
  | getEnc (fs : String)
  | getKey (fs : String)
deriving DecidableEq, Repr

/-- Execute one operation: the resulting cache state and emitted events. -/
def runOp (env : ZfsEnv) (op : Op) (s : CacheState) : CacheState × List Event :=
  match op with
  | .probe =>
      ((EncryptionCLISupported env.probe s).2.1, (EncryptionCLISupported env.probe s).2.2)
  | .getEnc fs =>
      ((ZFSGetEncryptionEnabled env fs s).2.1, (ZFSGetEncryptionEnabled env fs s).2.2)
  | .getKey fs =>
      ((ZFSGetKeyUnloaded env fs s).2.1, (ZFSGetKeyUnloaded env fs s).2.2)

/-- Execute a list of operations from cache state `s`. Returns the final
cache state, the concatenated event log, and the `(supported, err)` pair
each operation observed from its `EncryptionCLISupported` call (which every
operation performs on its entry state). -/
def runTrace (env : ZfsEnv) : List Op → CacheState →
    CacheState × List Event × List (Bool × Option GoError)
  | [], s => (s, [], [])
  | op :: ops, s =>
    let ob := (EncryptionCLISupported env.probe s).1
    let st := runOp env op s
    let rest := runTrace env ops st.1
    (rest.1, st.2 ++ rest.2.1, ob :: rest.2.2)

/-- Number of probe subprocess executions recorded in an event log. -/
def countProbeExecs (evs : List Event) : Nat :=
  evs.countP Event.isProbe

/-! ## Concrete collaborator environments

Used by the witness and counterexample theorems. -/

/-- Probe outcome of a modern tool: the usage text of the misused
`zfs load-key` mentions both required substrings; non-zero exit. -/
def probeUsageModern : ProbeEnv :=
  { output := "usage: zfs load-key [-rn] [-L keylocation] <-a or filesystem>",
    cmdErr := .exitErr true, override := none }

/-- Probe outcome of an old tool: usage text without the key-loading
vocabulary; non-zero exit. -/
def probeUsageOld : ProbeEnv :=
  { output := "usage: zfs command args ...", cmdErr := .exitErr true, override := none }

/-- Probe outcome with the environment override forcing support on. -/
def probeForcedOn : ProbeEnv :=
  { output := "", cmdErr := .exitErr true, override := some true }

/-- Probe outcome where the subprocess terminated with exit status zero, so
`cmd.CombinedOutput()` returned a nil error. -/
def probeExitZero : ProbeEnv :=
  { output := "", cmdErr := .noErr, override := none }

/-- Probe outcome where the subprocess could not be run at all. -/
def probeSpawnFailure : ProbeEnv :=
  { output := "", cmdErr := .otherErr "exec: executable file not found in PATH",
    override := none }

/-- Spawn failure combined with the override forcing support on. -/
def probeSpawnFailureForcedOn : ProbeEnv :=
  { output := "", cmdErr := .otherErr "exec: executable file not found in PATH",
    override := some true }

/-- A property set mapping every name to the same value. -/
def propsConst (v : String) : ZFSProperties := fun _ => v

/-- Capability forced on, all names valid, every property reads as `v`. -/
def envWithProp (v : String) : ZfsEnv :=
  { probe := probeForcedOn,
    validateErr := fun _ => none,
    getProps := fun _ _ _ => .ok (propsConst v) }

/-- Capability unsupported (old tool), queries would succeed. -/
def envUnsupported : ZfsEnv :=
  { probe := probeUsageOld,
    validateErr := fun _ => none,
    getProps := fun _ _ _ => .ok (propsConst "off") }

/-- Capability forced on, but every dataset name fails validation. -/
def envBadName : ZfsEnv :=
  { probe := probeForcedOn,
    validateErr := fun f => some (GoError.validationFailure ("invalid dataset name " ++ f)),
    getProps := fun _ _ _ => .ok (propsConst "available") }

/-- The probe subprocess could not be run; no override. -/
def envSpawnFailure : ZfsEnv :=
  { probe := probeSpawnFailure,
    validateErr := fun _ => none,
    getProps := fun _ _ _ => .ok (propsConst "off") }

/-! ## Helper lemmas -/

/-- From any reachable cache state, `EncryptionCLISupported` returns the pair
computed by the probe body. -/
theorem encryptionCLISupported_fst (p : ProbeEnv) (s : CacheState)
    (hs : ValidCache p s) :
    (EncryptionCLISupported p s).1 = probeCompute p := by
  rcases hs with h | h <;> subst h <;> rfl

/-- `EncryptionCLISupported` leaves the cache filled with the probe pair. -/
theorem encryptionCLISupported_state (p : ProbeEnv) (s : CacheState)
    (hs : ValidCache p s) :
    (EncryptionCLISupported p s).2.1 = some (probeCompute p) := by
  rcases hs with h | h <;> subst h <;> rfl

/-- A filled cache makes `EncryptionCLISupported` emit no events at all. -/
theorem encryptionCLISupported_events_filled (p : ProbeEnv)
    (r : Bool × Option GoError) :
    (EncryptionCLISupported p (some r)).2.2 = [] := rfl

/-- The events of one `EncryptionCLISupported` call: nothing, or exactly one
probe execution. -/
theorem encryptionCLISupported_events (p : ProbeEnv) (s : CacheState) :
    (EncryptionCLISupported p s).2.2 = [] ∨
    (EncryptionCLISupported p s).2.2 = [Event.probeExec] := by
  cases s <;> simp [EncryptionCLISupported]

/-- The result of the encryption gate is the deferred wrap of its body. -/
theorem zfsGetEncryptionEnabled_fst (env : ZfsEnv) (fs : String) (s : CacheState) :
    (ZFSGetEncryptionEnabled env fs s).1 =
      deferWrapEnc fs (zfsGetEncryptionEnabledBody env fs s).1 := rfl

/-- The deferred wrap does not touch the event log of the encryption gate. -/
theorem zfsGetEncryptionEnabled_events (env : ZfsEnv) (fs : String) (s : CacheState) :
    (ZFSGetEncryptionEnabled env fs s).2.2 =
      (zfsGetEncryptionEnabledBody env fs s).2.2 := rfl

/-- The result of the key gate is the deferred wrap of its body. -/
theorem zfsGetKeyUnloaded_fst (env : ZfsEnv) (fs : String) (s : CacheState) :
    (ZFSGetKeyUnloaded env fs s).1 =
      deferWrapKey fs (zfsGetKeyUnloadedBody env fs s).1 := rfl

/-- The deferred wrap does not touch the event log of the key gate. -/
theorem zfsGetKeyUnloaded_events (env : ZfsEnv) (fs : String) (s : CacheState) :
    (ZFSGetKeyUnloaded env fs s).2.2 =
      (zfsGetKeyUnloadedBody env fs s).2.2 := rfl

/-- Values other than the three handled literals fall to the default branch
of the `encryption` switch. -/
theorem interpretEncryptionValue_default (val : String)
    (h1 : val ≠ "") (h2 : val ≠ "-") (h3 : val ≠ "off") :
    interpretEncryptionValue val = .ok (true, none) := by
  unfold interpretEncryptionValue
  split <;> simp_all

/-- Values other than the three handled literals fall to the default branch
of the `keystatus` switch. -/
theorem interpretKeystatusValue_default (val : String)
    (h1 : val ≠ "") (h2 : val ≠ "available") (h3 : val ≠ "unavailable") :
    interpretKeystatusValue val = .panicked "Unknown key status" := by
  unfold interpretKeystatusValue
  split <;> simp_all

/-- Shape analysis of the encryption query-and-interpret tail: an error
result always carries `false`; `true` only ever comes with a nil error. -/
theorem encQueryStep_cases (env : ZfsEnv) (fs : String) :
    (∃ e, encQueryStep env fs = .ok (false, some e)) ∨
    encQueryStep env fs = .ok (false, none) ∨
    encQueryStep env fs = .ok (true, none) ∨
    (∃ m, encQueryStep env fs = .panicked m) := by
  unfold encQueryStep
  split
  · exact .inl ⟨_, rfl⟩
  · unfold interpretEncryptionValue
    split
    · exact .inr (.inr (.inr ⟨_, rfl⟩))
    · exact .inl ⟨_, rfl⟩
    · exact .inr (.inl rfl)
    · exact .inr (.inr (.inl rfl))

/-- Shape analysis of the keystatus query-and-interpret tail. -/
theorem keyQueryStep_cases (env : ZfsEnv) (fs : String) :
    (∃ e, keyQueryStep env fs = .ok (false, some e)) ∨
    keyQueryStep env fs = .ok (false, none) ∨
    keyQueryStep env fs = .ok (true, none) ∨
    (∃ m, keyQueryStep env fs = .panicked m) := by
  unfold keyQueryStep
  split
  · exact .inl ⟨_, rfl⟩
  · unfold interpretKeystatusValue
    split
    · exact .inr (.inr (.inr ⟨_, rfl⟩))
    · exact .inr (.inl rfl)
    · exact .inr (.inr (.inl rfl))
    · exact .inr (.inr (.inr ⟨_, rfl⟩))

/-- Shape analysis of the whole encryption gate body result. -/
theorem encBody_fst_cases (env : ZfsEnv) (fs : String) (s : CacheState) :
    (∃ e, (zfsGetEncryptionEnabledBody env fs s).1 = .ok (false, some e)) ∨
    (zfsGetEncryptionEnabledBody env fs s).1 = .ok (false, none) ∨
    (zfsGetEncryptionEnabledBody env fs s).1 = .ok (true, none) ∨
    (∃ m, (zfsGetEncryptionEnabledBody env fs s).1 = .panicked m) := by
  simp only [zfsGetEncryptionEnabledBody]
  split
  · exact .inl ⟨_, rfl⟩
  · split
    · exact .inr (.inl rfl)
    · split
      · exact .inl ⟨_, rfl⟩
      · exact encQueryStep_cases env fs

/-- Shape analysis of the whole key gate body result. -/
theorem keyBody_fst_cases (env : ZfsEnv) (fs : String) (s : CacheState) :
    (∃ e, (zfsGetKeyUnloadedBody env fs s).1 = .ok (false, some e)) ∨
    (zfsGetKeyUnloadedBody env fs s).1 = .ok (false, none) ∨
    (zfsGetKeyUnloadedBody env fs s).1 = .ok (true, none) ∨
    (∃ m, (zfsGetKeyUnloadedBody env fs s).1 = .panicked m) := by
  simp only [zfsGetKeyUnloadedBody]
  split
  · exact .inl ⟨_, rfl⟩
  · split
    · exact .inr (.inl rfl)
    · exact keyQueryStep_cases env fs

/-- Correctness of the executable prefix test against its specification. -/
theorem listStartsWith_iff (sub s : List Char) :
    listStartsWith sub s = true ↔ ∃ t, s = sub ++ t := by
  induction sub generalizing s with
  | nil => simp [listStartsWith]
  | cons a as ih =>
    cases s with
    | nil => simp [listStartsWith]
    | cons b bs =>
      simp only [listStartsWith, Bool.and_eq_true, beq_iff_eq, ih, List.cons_append,
        List.cons.injEq]
      constructor
      · rintro ⟨hab, t, ht⟩
        exact ⟨t, hab.symm, ht⟩
      · rintro ⟨t, hba, ht⟩
        exact ⟨hba.symm, t, ht⟩

/-- Correctness of the executable contiguous-occurrence scan against its
specification: some split of the list exhibits the pattern. -/
theorem listHasSub_iff (sub s : List Char) :
    listHasSub sub s = true ↔ ∃ l r, s = l ++ sub ++ r := by
  induction s with
  | nil =>
    simp only [listHasSub, listStartsWith_iff]
    constructor
    · rintro ⟨t, ht⟩
      exact ⟨[], t, by simpa using ht⟩
    · rintro ⟨l, r, h⟩
      have h3 := List.append_eq_nil.mp h.symm
      have h4 := List.append_eq_nil.mp h3.1
      exact ⟨r, by simp [h4.2, h3.2]⟩
  | cons c cs ih =>
    simp only [listHasSub, Bool.or_eq_true, listStartsWith_iff, ih]
    constructor
    · rintro (⟨t, ht⟩ | ⟨l, r, h⟩)
      · exact ⟨[], t, by simpa using ht⟩
      · exact ⟨c :: l, r, by simp [h]⟩
    · rintro ⟨l, r, h⟩
      cases l with
      | nil => exact .inl ⟨r, by simpa using h⟩
      | cons a l2 =>
        simp only [List.cons_append, List.cons.injEq] at h
        exact .inr ⟨l2, r, h.2⟩

/-- Correctness of `strContains` against the substring specification. -/
theorem strContains_iff (s sub : String) :
    strContains s sub = true ↔ ∃ l r, s.toList = l ++ sub.toList ++ r := by
  unfold strContains
  exact listHasSub_iff _ _

/-- The deferred wrap never rewrites the gate's cache state. -/
theorem zfsGetEncryptionEnabled_state (env : ZfsEnv) (fs : String) (s : CacheState) :
    (ZFSGetEncryptionEnabled env fs s).2.1 = (zfsGetEncryptionEnabledBody env fs s).2.1 := rfl

/-- The deferred wrap never rewrites the key gate's cache state. -/
theorem zfsGetKeyUnloaded_state (env : ZfsEnv) (fs : String) (s : CacheState) :
    (ZFSGetKeyUnloaded env fs s).2.1 = (zfsGetKeyUnloadedBody env fs s).2.1 := rfl

/-- Every branch of the encryption gate body passes the capability cache
state through unchanged. -/
theorem encBody_state (env : ZfsEnv) (fs : String) (s : CacheState) :
    (zfsGetEncryptionEnabledBody env fs s).2.1 = (EncryptionCLISupported env.probe s).2.1 := by
  simp only [zfsGetEncryptionEnabledBody]
  split
  · rfl
  · split
    · rfl
    · split <;> rfl

/-- Every branch of the key gate body passes the capability cache state
through unchanged. -/
theorem keyBody_state (env : ZfsEnv) (fs : String) (s : CacheState) :
    (zfsGetKeyUnloadedBody env fs s).2.1 = (EncryptionCLISupported env.probe s).2.1 := by
  simp only [zfsGetKeyUnloadedBody]
  split
  · rfl
  · split <;> rfl

/-- The event log of the encryption gate body: the capability call's events,
possibly followed by the validation call, possibly followed by the query. -/
theorem encBody_events (env : ZfsEnv) (fs : String) (s : CacheState) :
    (zfsGetEncryptionEnabledBody env fs s).2.2 = (EncryptionCLISupported env.probe s).2.2 ∨
    (zfsGetEncryptionEnabledBody env fs s).2.2 =
      (EncryptionCLISupported env.probe s).2.2 ++ [Event.validateCall fs] ∨
    (zfsGetEncryptionEnabledBody env fs s).2.2 =
      (EncryptionCLISupported env.probe s).2.2 ++
        [Event.validateCall fs, Event.queryCall fs ["encryption"]] := by
  simp only [zfsGetEncryptionEnabledBody]
  split
  · exact .inl rfl
  · split
    · exact .inl rfl
    · split
      · exact .inr (.inl rfl)
      · exact .inr (.inr rfl)

/-- The event log of the key gate body: the capability call's events,
possibly followed by the `keystatus` query. -/
theorem keyBody_events (env : ZfsEnv) (fs : String) (s : CacheState) :
    (zfsGetKeyUnloadedBody env fs s).2.2 = (EncryptionCLISupported env.probe s).2.2 ∨
    (zfsGetKeyUnloadedBody env fs s).2.2 =
      (EncryptionCLISupported env.probe s).2.2 ++ [Event.queryCall fs ["keystatus"]] := by
  simp only [zfsGetKeyUnloadedBody]
  split
  · exact .inl rfl
  · split
    · exact .inl rfl
    · exact .inr rfl

/-- From a reachable cache state, every operation leaves the cache filled
with the probe pair. -/
theorem runOp_state (env : ZfsEnv) (op : Op) (s : CacheState)
    (hs : ValidCache env.probe s) :
    (runOp env op s).1 = some (probeCompute env.probe) := by
  have h := encryptionCLISupported_state env.probe s hs
  cases op <;>
    simp [runOp, zfsGetEncryptionEnabled_state, zfsGetKeyUnloaded_state,
      encBody_state, keyBody_state, h]

/-- Each operation's probe executions are exactly those of its single
`EncryptionCLISupported` call. -/
theorem runOp_probe_count (env : ZfsEnv) (op : Op) (s : CacheState) :
    countProbeExecs (runOp env op s).2 =
      countProbeExecs (EncryptionCLISupported env.probe s).2.2 := by
  cases op with
  | probe => rfl
  | getEnc fs =>
    rcases encBody_events env fs s with h | h | h <;>
      simp [runOp, countProbeExecs, zfsGetEncryptionEnabled_events, h,
        List.countP_append, Event.isProbe]
  | getKey fs =>
    rcases keyBody_events env fs s with h | h <;>
      simp [runOp, countProbeExecs, zfsGetKeyUnloaded_events, h,
        List.countP_append, Event.isProbe]

/-- The capability call executes the probe exactly on the first use. -/
theorem encryptionCLISupported_probe_count (p : ProbeEnv) (s : CacheState) :
    countProbeExecs (EncryptionCLISupported p s).2.2 = if s = none then 1 else 0 := by
  cases s <;> simp [EncryptionCLISupported, countProbeExecs, Event.isProbe]

/-- Once the cache is filled, a trace performs no probe execution and every
observation is the memoized probe pair. -/
theorem runTrace_filled (env : ZfsEnv) (ops : List Op) :
    countProbeExecs (runTrace env ops (some (probeCompute env.probe))).2.1 = 0 ∧
    ∀ ob ∈ (runTrace env ops (some (probeCompute env.probe))).2.2,
      ob = probeCompute env.probe := by
  induction ops with
  | nil => simp [runTrace, countProbeExecs]
  | cons op ops ih =>
    have hstate := runOp_state env op (some (probeCompute env.probe)) (Or.inr rfl)
    have hcount := runOp_probe_count env op (some (probeCompute env.probe))
    constructor
    · show countProbeExecs ((runOp env op (some (probeCompute env.probe))).2 ++
        (runTrace env ops (runOp env op (some (probeCompute env.probe))).1).2.1) = 0
      rw [hstate]
      have h2 := ih.1
      have hc0 : countProbeExecs (runOp env op (some (probeCompute env.probe))).2 = 0 := by
        rw [hcount, encryptionCLISupported_probe_count]
        simp
      simp only [countProbeExecs, List.countP_append] at hc0 h2 ⊢
      omega
    · show ∀ ob ∈ ((EncryptionCLISupported env.probe (some (probeCompute env.probe))).1 ::
        (runTrace env ops (runOp env op (some (probeCompute env.probe))).1).2.2),
        ob = probeCompute env.probe
      rw [hstate]
      intro ob hob
      rcases List.mem_cons.mp hob with h | h
      · rw [h]
        exact encryptionCLISupported_fst env.probe _ (Or.inr rfl)
      · exact ih.2 ob h

/-! ## Claim theorems -/

/-- C1: for every dataset name, if the capability probe completes without
error and reports unsupported, then `ZFSGetEncryptionEnabled` returns
`(false, nil)` and `ZFSGetKeyUnloaded` returns `(false, nil)`, and neither
function issues a property query. -/
theorem c1_unsupported_short_circuits_both_gates (env : ZfsEnv) (fs : String)
    (s : CacheState) (hs : ValidCache env.probe s)
    (hp : probeCompute env.probe = (false, none)) :
    (ZFSGetEncryptionEnabled env fs s).1 = .ok (false, none) ∧
    (∀ ev ∈ (ZFSGetEncryptionEnabled env fs s).2.2, ev.isQuery = false) ∧
    (ZFSGetKeyUnloaded env fs s).1 = .ok (false, none) ∧
    (∀ ev ∈ (ZFSGetKeyUnloaded env fs s).2.2, ev.isQuery = false) := by
  have hfst := encryptionCLISupported_fst env.probe s hs
  have hev := encryptionCLISupported_events env.probe s
  refine ⟨?_, ?_, ?_, ?_⟩
  · rw [zfsGetEncryptionEnabled_fst]
    simp [zfsGetEncryptionEnabledBody, hfst, hp, deferWrapEnc]
  · rw [zfsGetEncryptionEnabled_events]
    simp only [zfsGetEncryptionEnabledBody, hfst, hp]
    rcases hev with h | h <;> simp [h, Event.isQuery]
  · rw [zfsGetKeyUnloaded_fst]
    simp [zfsGetKeyUnloadedBody, hfst, hp, deferWrapKey]
  · rw [zfsGetKeyUnloaded_events]
    simp only [zfsGetKeyUnloadedBody, hfst, hp]
    rcases hev with h | h <;> simp [h, Event.isQuery]

/-- Witness for C1 at a concrete environment whose probe output lacks the
key-loading vocabulary. -/
theorem c1_witness :
    (ZFSGetEncryptionEnabled envUnsupported "tank/a" none).1 = .ok (false, none) ∧
    (ZFSGetKeyUnloaded envUnsupported "tank/a" none).1 = .ok (false, none) :=
  ⟨(c1_unsupported_short_circuits_both_gates envUnsupported "tank/a" none
      (Or.inl rfl) (by decide)).1,
   (c1_unsupported_short_circuits_both_gates envUnsupported "tank/a" none
      (Or.inl rfl) (by decide)).2.2.1⟩

/-- C2: with the capability supported and a valid dataset name, the
encryption gate maps the queried `encryption` value: "off" yields
`(false, nil)`; "-" yields a data-integrity error with `false`; any other
non-empty value yields `(true, nil)`; the empty value hits the fatal
invariant-violation (panic) path. -/
theorem c2_encryption_value_mapping (env : ZfsEnv) (fs : String) (s : CacheState)
    (hs : ValidCache env.probe s) (hp : probeCompute env.probe = (true, none))
    (hv : env.validateErr fs = none) (props : ZFSProperties)
    (hq : env.getProps fs ["encryption"] PropertySource.SourceAny = Except.ok props) :
    (props "encryption" = "off" →
      (ZFSGetEncryptionEnabled env fs s).1 = .ok (false, none)) ∧
    (props "encryption" = "-" →
      (ZFSGetEncryptionEnabled env fs s).1 = .ok (false,
        some (GoError.wrapErr ("zfs get encryption enabled fs=\x22" ++ fs ++ "\x22")
          (GoError.newErr "`encryption` property should never be \x22-\x22")))) ∧
    (props "encryption" ≠ "" → props "encryption" ≠ "-" → props "encryption" ≠ "off" →
      (ZFSGetEncryptionEnabled env fs s).1 = .ok (true, none)) ∧
    (props "encryption" = "" →
      (ZFSGetEncryptionEnabled env fs s).1 =
        .panicked "zfs get should return a value for `encryption`") := by
  have hfst := encryptionCLISupported_fst env.probe s hs
  have hbody : (zfsGetEncryptionEnabledBody env fs s).1 =
      interpretEncryptionValue (props "encryption") := by
    simp [zfsGetEncryptionEnabledBody, hfst, hp, hv, encQueryStep, hq]
  refine ⟨?_, ?_, ?_, ?_⟩
  · intro h
    rw [zfsGetEncryptionEnabled_fst, hbody, h]
    rfl
  · intro h
    rw [zfsGetEncryptionEnabled_fst, hbody, h]
    rfl
  · intro h1 h2 h3
    rw [zfsGetEncryptionEnabled_fst, hbody,
      interpretEncryptionValue_default _ h1 h2 h3]
    rfl
  · intro h
    rw [zfsGetEncryptionEnabled_fst, hbody, h]
    rfl

/-- Witness for C2: a cipher-name value yields `(true, nil)` and "off"
yields `(false, nil)` at concrete environments. -/
theorem c2_witness :
    (ZFSGetEncryptionEnabled (envWithProp "aes-256-gcm") "tank/a" none).1 =
      .ok (true, none) ∧
    (ZFSGetEncryptionEnabled (envWithProp "off") "tank/a" none).1 =
      .ok (false, none) :=
  ⟨(c2_encryption_value_mapping (envWithProp "aes-256-gcm") "tank/a" none
      (Or.inl rfl) (by decide) rfl (propsConst "aes-256-gcm") rfl).2.2.1
      (by decide) (by decide) (by decide),
   (c2_encryption_value_mapping (envWithProp "off") "tank/a" none
      (Or.inl rfl) (by decide) rfl (propsConst "off") rfl).1 rfl⟩

/-- C3: with the capability supported, the key gate maps the queried
`keystatus` value: "available" yields `(false, nil)`; "unavailable" yields
`(true, nil)`; any other non-empty value hits the fatal unrecognized-state
(panic) path; the empty value hits the fatal invariant-violation path. -/
theorem c3_keystatus_value_mapping (env : ZfsEnv) (fs : String) (s : CacheState)
    (hs : ValidCache env.probe s) (hp : probeCompute env.probe = (true, none))
    (props : ZFSProperties)
    (hq : env.getProps fs ["keystatus"] PropertySource.SourceAny = Except.ok props) :
    (props "keystatus" = "available" →
      (ZFSGetKeyUnloaded env fs s).1 = .ok (false, none)) ∧
    (props "keystatus" = "unavailable" →
      (ZFSGetKeyUnloaded env fs s).1 = .ok (true, none)) ∧
    (props "keystatus" ≠ "" → props "keystatus" ≠ "available" →
      props "keystatus" ≠ "unavailable" →
      (ZFSGetKeyUnloaded env fs s).1 = .panicked "Unknown key status") ∧
    (props "keystatus" = "" →
      (ZFSGetKeyUnloaded env fs s).1 =
        .panicked "zfs get should return a value for `keystatus`") := by
  have hfst := encryptionCLISupported_fst env.probe s hs
  have hbody : (zfsGetKeyUnloadedBody env fs s).1 =
      interpretKeystatusValue (props "keystatus") := by
    simp [zfsGetKeyUnloadedBody, hfst, hp, keyQueryStep, hq]
  refine ⟨?_, ?_, ?_, ?_⟩
  · intro h
    rw [zfsGetKeyUnloaded_fst, hbody, h]
    rfl
  · intro h
    rw [zfsGetKeyUnloaded_fst, hbody, h]
    rfl
  · intro h1 h2 h3
    rw [zfsGetKeyUnloaded_fst, hbody,
      interpretKeystatusValue_default _ h1 h2 h3]
    rfl
  · intro h
    rw [zfsGetKeyUnloaded_fst, hbody, h]
    rfl

/-- Witness for C3 at concrete environments for both defined values. -/
theorem c3_witness :
    (ZFSGetKeyUnloaded (envWithProp "available") "tank/a" none).1 =
      .ok (false, none) ∧
    (ZFSGetKeyUnloaded (envWithProp "unavailable") "tank/a" none).1 =
      .ok (true, none) :=
  ⟨(c3_keystatus_value_mapping (envWithProp "available") "tank/a" none
      (Or.inl rfl) (by decide) (propsConst "available") rfl).1 rfl,
   (c3_keystatus_value_mapping (envWithProp "unavailable") "tank/a" none
      (Or.inl rfl) (by decide) (propsConst "unavailable") rfl).2.1 rfl⟩

/-- C4 counterexample: when `cmd.CombinedOutput()` returns a nil error (the
subprocess exited with status zero), the Go condition
`!ok || ok && !ee.Exited()` does hold (the type assertion to an exit error
fails), yet no hard error is recorded, because wrapping a nil error yields
nil. So "records a hard error exactly when the command error is
absent-as-exit-error or an exit error whose process did not exit" fails at
this input. -/
theorem c4_counterexample :
    ¬ (((probeCompute probeExitZero).2 ≠ none) ↔
        (probeExitZero.cmdErr.isExitErrB = false ∨
         (probeExitZero.cmdErr.isExitErrB = true ∧
          probeExitZero.cmdErr.exitedB = false))) := by
  decide

/-- C4 (amended): the capability probe records a hard error exactly when the
command error is present and the process did not terminate via exit — a
present non-exit error, or an exit error whose process did not exit. In
particular, when the subprocess terminated with an exit status (zero or
non-zero), no error is recorded. -/
theorem c4_hard_error_iff_no_normal_exit (p : ProbeEnv) :
    ((probeCompute p).2 ≠ none ↔
      (p.cmdErr ≠ CmdErr.noErr ∧
        (p.cmdErr.isExitErrB = false ∨ p.cmdErr.exitedB = false))) ∧
    (p.cmdErr = CmdErr.exitErr true → (probeCompute p).2 = none) := by
  rcases p with ⟨o, c, ov⟩
  cases c with
  | noErr =>
    simp [probeCompute, cmdErrValue, errorsWrap, CmdErr.isExitErrB, CmdErr.exitedB]
  | exitErr ex =>
    cases ex <;>
      simp [probeCompute, cmdErrValue, errorsWrap, CmdErr.isExitErrB, CmdErr.exitedB]
  | otherErr m =>
    simp [probeCompute, cmdErrValue, errorsWrap, CmdErr.isExitErrB, CmdErr.exitedB]

/-- Witness for C4 (amended): an ordinary non-zero exit records no error. -/
theorem c4_witness : (probeCompute probeUsageModern).2 = none :=
  (c4_hard_error_iff_no_normal_exit probeUsageModern).2 rfl

/-- C5: the cached supported flag equals the environment override value when
the override is set; otherwise it is true if and only if the probe's
combined output contains both required substrings ("load-key" and
"keylocation"), for every possible probe output. -/
theorem c5_supported_flag_override_else_substrings (p : ProbeEnv) (s : CacheState)
    (hs : ValidCache p s) :
    (∀ b, p.override = some b → (EncryptionCLISupported p s).1.1 = b) ∧
    (p.override = none →
      ((EncryptionCLISupported p s).1.1 = true ↔
        (∃ l r, p.output.toList = l ++ "load-key".toList ++ r) ∧
        (∃ l r, p.output.toList = l ++ "keylocation".toList ++ r))) := by
  have hfst := encryptionCLISupported_fst p s hs
  constructor
  · intro b hb
    rw [hfst]
    simp [probeCompute, hb]
  · intro hb
    rw [hfst]
    simp only [probeCompute, hb, Bool.and_eq_true, strContains_iff]

/-- Witness for C5 at a concrete probe output that contains both
substrings and has no override set. -/
theorem c5_witness :
    (EncryptionCLISupported probeUsageModern none).1.1 = true ↔
      (∃ l r, probeUsageModern.output.toList = l ++ "load-key".toList ++ r) ∧
      (∃ l r, probeUsageModern.output.toList = l ++ "keylocation".toList ++ r) :=
  (c5_supported_flag_override_else_substrings probeUsageModern none (Or.inl rfl)).2 rfl

/-- C6 counterexample: with the environment override forcing the flag on, a
probe whose subprocess failed with a non-exit error still caches
`supported = true`, so "the cached capability result is not supported" fails
at this input (the hard error is recorded and surfaced all the same). -/
theorem c6_counterexample :
    probeSpawnFailureForcedOn.cmdErr =
      CmdErr.otherErr "exec: executable file not found in PATH" ∧
    (probeCompute probeSpawnFailureForcedOn).2 ≠ none ∧
    (probeCompute probeSpawnFailureForcedOn).1 = true := by
  decide

/-- C6 (amended): if the probe subprocess fails with a non-exit error, every
call to either gate function returns the wrapped execution error; and the
cached flag is still computed from override and output as usual, so it is
not "supported" provided the override is unset and the combined output does
not contain both required substrings (as with the empty output of a missing
binary). -/
theorem c6_nonexit_error_propagates_to_gates (env : ZfsEnv) (fs : String)
    (s : CacheState) (hs : ValidCache env.probe s) (m : String)
    (hc : env.probe.cmdErr = CmdErr.otherErr m) :
    (ZFSGetEncryptionEnabled env fs s).1 = .ok (false,
      some (GoError.wrapErr ("zfs get encryption enabled fs=\x22" ++ fs ++ "\x22")
        (GoError.wrapErr "native encryption cli support feature check failed"
          (GoError.cmdFailure (CmdErr.otherErr m))))) ∧
    (ZFSGetKeyUnloaded env fs s).1 = .ok (false,
      some (GoError.wrapErr ("zfs get key loaded fs=\x22" ++ fs ++ "\x22")
        (GoError.wrapErr "native encryption cli support feature check failed"
          (GoError.cmdFailure (CmdErr.otherErr m))))) ∧
    (env.probe.override = none →
      (strContains env.probe.output "load-key" &&
        strContains env.probe.output "keylocation") = false →
      (probeCompute env.probe).1 = false) := by
  have hfst := encryptionCLISupported_fst env.probe s hs
  have h2 : (probeCompute env.probe).2 =
      some (GoError.wrapErr "native encryption cli support feature check failed"
        (GoError.cmdFailure (CmdErr.otherErr m))) := by
    simp [probeCompute, hc, cmdErrValue, errorsWrap, CmdErr.isExitErrB]
  refine ⟨?_, ?_, ?_⟩
  · rw [zfsGetEncryptionEnabled_fst]
    simp [zfsGetEncryptionEnabledBody, hfst, h2, deferWrapEnc]
  · rw [zfsGetKeyUnloaded_fst]
    simp [zfsGetKeyUnloadedBody, hfst, h2, deferWrapKey]
  · intro hov hsub
    simp [probeCompute, hov, hsub]

/-- Witness for C6 (amended) at a concrete spawn-failure environment. -/
theorem c6_witness :
    (ZFSGetEncryptionEnabled envSpawnFailure "tank/a" none).1 = .ok (false,
      some (GoError.wrapErr ("zfs get encryption enabled fs=\x22" ++ "tank/a" ++ "\x22")
        (GoError.wrapErr "native encryption cli support feature check failed"
          (GoError.cmdFailure
            (CmdErr.otherErr "exec: executable file not found in PATH"))))) ∧
    (probeCompute envSpawnFailure.probe).1 = false :=
  ⟨(c6_nonexit_error_propagates_to_gates envSpawnFailure "tank/a" none
      (Or.inl rfl) "exec: executable file not found in PATH" rfl).1,
   (c6_nonexit_error_propagates_to_gates envSpawnFailure "tank/a" none
      (Or.inl rfl) "exec: executable file not found in PATH" rfl).2.2 rfl (by decide)⟩

/-- C7: when the capability is supported, a dataset name that fails the
validation collaborator makes `ZFSGetEncryptionEnabled` return the
validation error wrapped with the dataset name, and no property query is
ever issued. -/
theorem c7_validation_error_before_query (env : ZfsEnv) (fs : String)
    (s : CacheState) (hs : ValidCache env.probe s)
    (hp : probeCompute env.probe = (true, none))
    (e : GoError) (hv : env.validateErr fs = some e) :
    (ZFSGetEncryptionEnabled env fs s).1 = .ok (false,
      some (GoError.wrapErr ("zfs get encryption enabled fs=\x22" ++ fs ++ "\x22") e)) ∧
    (∀ ev ∈ (ZFSGetEncryptionEnabled env fs s).2.2, ev.isQuery = false) := by
  have hfst := encryptionCLISupported_fst env.probe s hs
  have hev := encryptionCLISupported_events env.probe s
  constructor
  · rw [zfsGetEncryptionEnabled_fst]
    simp [zfsGetEncryptionEnabledBody, hfst, hp, hv, deferWrapEnc]
  · rw [zfsGetEncryptionEnabled_events]
    simp only [zfsGetEncryptionEnabledBody, hfst, hp, hv]
    rcases hev with h | h <;> simp [h, Event.isQuery]

/-- Witness for C7 at a concrete environment whose validator rejects every
name. -/
theorem c7_witness :
    (ZFSGetEncryptionEnabled envBadName "tank/a" none).1 = .ok (false,
      some (GoError.wrapErr ("zfs get encryption enabled fs=\x22" ++ "tank/a" ++ "\x22")
        (GoError.validationFailure ("invalid dataset name " ++ "tank/a")))) :=
  (c7_validation_error_before_query envBadName "tank/a" none (Or.inl rfl)
    (by decide) (GoError.validationFailure ("invalid dataset name " ++ "tank/a")) rfl).1

/-- C9: `ZFSGetKeyUnloaded` performs no dataset-name validation — for every
environment and name (including names its validator would reject) it never
emits a validation call, and when the capability is supported it proceeds
directly to the `keystatus` property query. -/
theorem c9_key_gate_never_validates (env : ZfsEnv) (fs : String) (s : CacheState)
    (hs : ValidCache env.probe s) :
    (∀ ev ∈ (ZFSGetKeyUnloaded env fs s).2.2, ev.isValidate = false) ∧
    (probeCompute env.probe = (true, none) →
      Event.queryCall fs ["keystatus"] ∈ (ZFSGetKeyUnloaded env fs s).2.2) := by
  have hev := encryptionCLISupported_events env.probe s
  constructor
  · rw [zfsGetKeyUnloaded_events]
    rcases keyBody_events env fs s with h | h <;> rcases hev with h2 | h2 <;>
      simp [h, h2, Event.isValidate]
  · intro hp
    have hfst := encryptionCLISupported_fst env.probe s hs
    rw [zfsGetKeyUnloaded_events]
    simp [zfsGetKeyUnloadedBody, hfst, hp]

/-- Witness for C9: in an environment that rejects every dataset name, the
key gate still reaches the `keystatus` query. -/
theorem c9_witness :
    Event.queryCall "bad name!" ["keystatus"] ∈
      (ZFSGetKeyUnloaded envBadName "bad name!" none).2.2 :=
  (c9_key_gate_never_validates envBadName "bad name!" none (Or.inl rfl)).2 (by decide)

/-- C10: whenever either gate function returns a non-nil error, the boolean
alongside it is false; no call returns `(true, non-nil error)`. This holds
for every collaborator environment and every cache state. -/
theorem c10_no_true_with_error (env : ZfsEnv) (fs : String) (s : CacheState) :
    (∀ b e, (ZFSGetEncryptionEnabled env fs s).1 = .ok (b, some e) → b = false) ∧
    (∀ b e, (ZFSGetKeyUnloaded env fs s).1 = .ok (b, some e) → b = false) := by
  constructor
  · intro b e h
    rw [zfsGetEncryptionEnabled_fst] at h
    rcases encBody_fst_cases env fs s with ⟨e1, h1⟩ | h1 | h1 | ⟨m, h1⟩ <;>
      rw [h1] at h <;> simp_all [deferWrapEnc]
  · intro b e h
    rw [zfsGetKeyUnloaded_fst] at h
    rcases keyBody_fst_cases env fs s with ⟨e1, h1⟩ | h1 | h1 | ⟨m, h1⟩ <;>
      rw [h1] at h <;> simp_all [deferWrapKey]

/-- Witness for C10 at a concrete erroring call (failed name validation). -/
theorem c10_witness : false = false :=
  (c10_no_true_with_error envBadName "tank/a" none).1 false
    (GoError.wrapErr ("zfs get encryption enabled fs=\x22" ++ "tank/a" ++ "\x22")
      (GoError.validationFailure ("invalid dataset name " ++ "tank/a"))) (by decide)

/-- C8: across any sequence of calls to the three public operations within
one process lifetime (starting from the empty cache), the probe subprocess
is executed at most once, and every call observes the same cached
`(supported, error)` pair — the one computed by the first execution. -/
theorem c8_probe_at_most_once_and_stable (env : ZfsEnv) (ops : List Op) :
    countProbeExecs (runTrace env ops none).2.1 ≤ 1 ∧
    ∀ ob ∈ (runTrace env ops none).2.2, ob = probeCompute env.probe := by
  cases ops with
  | nil => simp [runTrace, countProbeExecs]
  | cons op ops =>
    have hstate := runOp_state env op none (Or.inl rfl)
    have hfill := runTrace_filled env ops
    constructor
    · show countProbeExecs ((runOp env op none).2 ++
        (runTrace env ops (runOp env op none).1).2.1) ≤ 1
      rw [hstate]
      have h1 : countProbeExecs (runOp env op none).2 = 1 := by
        rw [runOp_probe_count, encryptionCLISupported_probe_count]
        simp
      have h2 := hfill.1
      simp only [countProbeExecs, List.countP_append] at h1 h2 ⊢
      omega
    · show ∀ ob ∈ ((EncryptionCLISupported env.probe none).1 ::
        (runTrace env ops (runOp env op none).1).2.2), ob = probeCompute env.probe
      rw [hstate]
      intro ob hob
      rcases List.mem_cons.mp hob with h | h
      · rw [h]
        exact encryptionCLISupported_fst env.probe none (Or.inl rfl)
      · exact hfill.2 ob h

/-- Witness for C8: a concrete three-call trace observes the probe pair
computed by its first call. -/
theorem c8_witness : (true, (none : Option GoError)) = probeCompute (envWithProp "off").probe :=
  (c8_probe_at_most_once_and_stable (envWithProp "off")
    [Op.probe, Op.getEnc "tank/a", Op.getKey "tank/a"]).2 (true, none) (by decide)

end ZreplEncryption
